import Mathlib

/-!
Verification of the telephony voice pipeline core (codec conversion,
voice-activity detection, session store, rate limiting, frame routing)
against its natural-language specification.

Buffers of bytes are modelled as `List Nat` with every element `< 256`;
PCM16 buffers are byte lists read two bytes at a time in little-endian
order, exactly as the source reads them with `readInt16LE` /
`writeInt16LE`.  JavaScript numbers that hold 32-bit intermediate
results of `~`, `>>`, `&`, `|` are modelled on `Nat`/`Int`: each use
below only ever inspects the low 8 bits of a complemented byte, so the
complement `~b` of a byte `b` is rendered as `b ^^^ 0xFF`.
-/

/-! ## Codec converter (voice-vad.ts `mulawToPCM16`, voice-tts-call.ts `pcm16ToMulaw`) -/

def MULAW_BIAS : Nat := 0x84

def MULAW_CLIP : Nat := 32635

/-- `buffer.readInt16LE`: two bytes, little endian, two's complement. -/
def readInt16LE (b0 b1 : Nat) : Int :=
  if b0 + 256 * b1 < 32768 then (b0 + 256 * b1 : Nat) else (b0 + 256 * b1 : Nat) - 65536

/-- `buffer.writeInt16LE`: the two little-endian bytes of a signed 16-bit value. -/
def writeInt16LE (v : Int) : List Nat :=
  [(v % 65536).toNat % 256, (v % 65536).toNat / 256]

/-- One sample of `VoiceActivityDetector.mulawToPCM16` (src/src/tts.ts).
The source computes `inverted = ~mulaw` on a 32-bit integer and then
extracts bits 0–7 only, so the complement is taken inside the byte. -/
def mulawDecodeSample (mulaw : Nat) : Int :=
  let inverted := mulaw ^^^ 0xFF
  let sign := (inverted >>> 7) &&& 0x01
  let exponent := (inverted >>> 4) &&& 0x07
  let mantissa := inverted &&& 0x0F
  let linear : Int := (((mantissa <<< 3) + MULAW_BIAS) <<< exponent : Nat)
  let linear := if sign = 0 then -linear else linear
  max (-32768) (min 32767 linear)

/-- `VoiceActivityDetector.mulawToPCM16`: one output sample (two bytes,
little endian) per input byte. -/
def mulawToPCM16 : List Nat → List Nat
  | [] => []
  | b :: rest => writeInt16LE (mulawDecodeSample b) ++ mulawToPCM16 rest

/-- The exponent search of `pcm16ToMulaw`: `exponent` starts at 7 and the
loop breaks at the first `exp` with `sample <= 0xFF << exp`. -/
def mulawExponent (sample : Nat) : Nat :=
  ((List.range 8).find? (fun e => sample ≤ 0xFF <<< e)).getD 7

/-- One sample of `pcm16ToMulaw` (voice-tts-call.ts).  The final `~mulaw`
is stored into a byte, keeping the low 8 bits only. -/
def pcm16SampleToMulaw (v : Int) : Nat :=
  let sign : Nat := if v < 0 then 0x80 else 0x00
  let sample : Nat := (if v < 0 then -v else v).toNat
  let sample := if sample > MULAW_CLIP then MULAW_CLIP else sample
  let sample := sample + MULAW_BIAS
  let exponent := mulawExponent sample
  let mantissa := (sample >>> (exponent + 3)) &&& 0x0F
  let mulaw := sign ||| (exponent <<< 4) ||| mantissa
  mulaw ^^^ 0xFF

/-- `pcm16ToMulaw`: reads the input two bytes at a time with
`readInt16LE` and emits one μ-law byte per sample.  (The source throws
on odd byte length; the claims only concern even-length buffers.) -/
def pcm16ToMulaw : List Nat → List Nat
  | b0 :: b1 :: rest => pcm16SampleToMulaw (readInt16LE b0 b1) :: pcm16ToMulaw rest
  | _ => []

/-- The samples of a PCM16 byte buffer, as the source reads them:
`readInt16LE` at every even offset. -/
def pcm16Samples : List Nat → List Int
  | b0 :: b1 :: rest => readInt16LE b0 b1 :: pcm16Samples rest
  | _ => []

/-- Modelled from the spec (§4.1 `decode`): for each input byte, invert
all bits, extract a 1-bit sign, 3-bit exponent and 4-bit mantissa,
reconstruct `((mantissa << 3) + BIAS) << exponent` with `BIAS = 0x84`,
negate when the sign bit indicates a negative sample (in this codec's
convention a cleared sign bit after inversion marks a negative sample),
and clamp to `[-32768, 32767]`.  Written with `/` and `%` instead of the
source's shifts and masks, to be compared with `mulawDecodeSample`. -/
def mulawDecodeSampleSpec (b : Nat) : Int :=
  let inverted := b ^^^ 0xFF
  let sign := inverted / 128 % 2
  let exponent := inverted / 16 % 8
  let mantissa := inverted % 16
  let magnitude : Int := ((mantissa * 8) + 0x84) * 2 ^ exponent
  let signed := if sign = 0 then -magnitude else magnitude
  max (-32768) (min 32767 signed)

/-! ## Voice Activity Detector (src/src/tts.ts `VoiceActivityDetector`)

Audio chunks are modelled as their lists of 16-bit samples (`List Int`);
the byte length of a chunk (`Buffer.length` in the source) is twice its
sample count.  `Date.now()` is an explicit `now : Int` argument of each
`process` call.  The source compares the floating-point RMS energy
`sqrt(sum / samples)` against the threshold; since both sides are
nonnegative and squaring is monotone, the comparison is modelled exactly
in rational arithmetic as `threshold^2 < sum / samples`. -/

inductive VADEvent where
  | speech_start
  | speech_end
  | speaking
deriving DecidableEq

structure VADConfig where
  energyThreshold : Nat
  silenceDurationMs : Nat
  minSpeechDurationMs : Nat
  sampleRate : Nat

/-- The VAD configuration built by `loadVoiceConfig` (voice-config.ts)
and passed to `new VoiceActivityDetector` with `config.voice.sampleRate`. -/
def defaultVADConfig : VADConfig :=
  { energyThreshold := 500, silenceDurationMs := 1500, minSpeechDurationMs := 300,
    sampleRate := 8000 }

structure VADState where
  isSpeaking : Bool
  speechStartTime : Int
  lastSpeechTime : Int
  audioBuffer : List (List Int)
  audioBufferSize : Nat
deriving DecidableEq

/-- The field values a fresh `VoiceActivityDetector` starts with (also
the state after `reset()`). -/
def VADState.initial : VADState :=
  { isSpeaking := false, speechStartTime := 0, lastSpeechTime := 0,
    audioBuffer := [], audioBufferSize := 0 }

structure VADResult where
  event : Option VADEvent
  energySq : Rat
  audioBuffer : Option (List Int)
deriving DecidableEq

/-- Byte length of a chunk: 16-bit samples are two bytes each. -/
def chunkBytes (chunk : List Int) : Nat := 2 * chunk.length

def sumSquares (chunk : List Int) : Int := (chunk.map (fun s => s * s)).sum

/-- `calculateEnergy` squared: `sum / samples` (0 for an empty buffer,
as in the source's early return). -/
def calculateEnergySq (chunk : List Int) : Rat :=
  if chunk.length = 0 then 0 else (sumSquares chunk : Rat) / (chunk.length : Rat)

/-- `energy > this.config.energyThreshold` with
`energy = sqrt(sum / samples)`: both sides are nonnegative and squaring
is monotone, so for `samples > 0` the comparison is equivalent to
`threshold² · samples < sum`, exact in integer arithmetic; for an empty
chunk the source returns energy 0 and both readings are false. -/
def isSpeechEnergy (cfg : VADConfig) (chunk : List Int) : Bool :=
  decide ((cfg.energyThreshold * cfg.energyThreshold : Int) * chunk.length < sumSquares chunk)

/-- `const maxBufferBytes = 10 * 1024 * 1024` (BUG FIX #4 in the source). -/
def maxBufferBytes : Nat := 10 * 1024 * 1024

/-- `VoiceActivityDetector.process`, translated branch for branch.  The
returned pair is (state after the call, returned `VADResult`). -/
def VoiceActivityDetector.process (cfg : VADConfig) (s : VADState) (now : Int)
    (audioChunk : List Int) : VADState × VADResult :=
  if isSpeechEnergy cfg audioChunk then
    if !s.isSpeaking then
      ({ isSpeaking := true, speechStartTime := now, lastSpeechTime := now,
         audioBuffer := [audioChunk], audioBufferSize := chunkBytes audioChunk },
       { event := some .speech_start, energySq := calculateEnergySq audioChunk,
         audioBuffer := none })
    else
      if s.audioBufferSize + chunkBytes audioChunk > maxBufferBytes then
        ({ s with lastSpeechTime := now },
         { event := some .speaking, energySq := calculateEnergySq audioChunk,
           audioBuffer := none })
      else
        ({ s with lastSpeechTime := now,
                  audioBuffer := s.audioBuffer ++ [audioChunk],
                  audioBufferSize := s.audioBufferSize + chunkBytes audioChunk },
         { event := some .speaking, energySq := calculateEnergySq audioChunk,
           audioBuffer := none })
  else
    if s.isSpeaking then
      if now - s.lastSpeechTime ≥ (cfg.silenceDurationMs : Int) then
        if now - s.speechStartTime ≥ (cfg.minSpeechDurationMs : Int) then
          ({ s with isSpeaking := false, audioBuffer := [], audioBufferSize := 0 },
           { event := some .speech_end, energySq := calculateEnergySq audioChunk,
             audioBuffer := some s.audioBuffer.flatten })
        else
          ({ s with isSpeaking := false, audioBuffer := [], audioBufferSize := 0 },
           { event := none, energySq := calculateEnergySq audioChunk,
             audioBuffer := none })
      else
        if s.audioBufferSize + chunkBytes audioChunk > maxBufferBytes then
          (s,
           { event := some .speaking, energySq := calculateEnergySq audioChunk,
             audioBuffer := none })
        else
          ({ s with audioBuffer := s.audioBuffer ++ [audioChunk],
                    audioBufferSize := s.audioBufferSize + chunkBytes audioChunk },
           { event := some .speaking, energySq := calculateEnergySq audioChunk,
             audioBuffer := none })
    else
      (s,
       { event := none, energySq := calculateEnergySq audioChunk,
         audioBuffer := none })

/-- Feed timestamped chunks to `process` in order, collecting the
emitted events and the final detector state. -/
def runVAD (cfg : VADConfig) : VADState → List (Int × List Int) →
    VADState × List (Option VADEvent)
  | s, [] => (s, [])
  | s, f :: fs =>
    match VoiceActivityDetector.process cfg s f.1 f.2 with
    | (s1, r) =>
      match runVAD cfg s1 fs with
      | (s2, evs) => (s2, r.event :: evs)

/-- `k` frames of the chunk `chunk`, the first at time `T`, one every
`d` milliseconds. -/
def framesFrom (T d : Int) (chunk : List Int) : Nat → List (Int × List Int)
  | 0 => []
  | k + 1 => (T, chunk) :: framesFrom (T + d) d chunk k

def countEvent (evs : List (Option VADEvent)) (e : VADEvent) : Nat :=
  evs.count (some e)

/-- The synthetic frame sequence of the C3 counterexample: 20 ms frames,
40 ms of silence, then 100 ms of loud frames (energy 1000 > 500), then
1500 ms of silence. -/
def c3CounterFrames : List (Int × List Int) :=
  framesFrom 0 20 [0] 2 ++ framesFrom 40 20 [1000] 5 ++ framesFrom 140 20 [0] 75


/-- `audioBufferSize` tracks the total byte length of the buffered
chunks and stays within the 10 MiB ceiling. -/
def VADState.sizeInv (s : VADState) : Prop :=
  s.audioBufferSize = (s.audioBuffer.map chunkBytes).sum ∧
  s.audioBufferSize ≤ maxBufferBytes

/-- A detector that is mid-segment with segment start `SS` and last
loud frame at `L`. -/
def SpState (SS L : Int) (s : VADState) : Prop :=
  s.isSpeaking = true ∧ s.speechStartTime = SS ∧ s.lastSpeechTime = L

/-- A single loud chunk whose byte length (2 · 5242881 = 10485762)
exceeds the 10 MiB cap. -/
def oversizedChunk : List Int := List.replicate 5242881 1000

/-- The three-phase synthetic sequence of the segmentation property:
`a` quiet frames, `b` loud frames, `c` quiet frames, one frame every
`d` ms starting at time 0. -/
def threePhaseFrames (d a b c : Nat) (q l : List Int) : List (Int × List Int) :=
  framesFrom 0 (d : Int) q a ++
    (framesFrom ((a * d : Nat) : Int) (d : Int) l b ++
      framesFrom (((a + b) * d : Nat) : Int) (d : Int) q c)

/-! ## Call session store (voice-session.ts `VoiceSessionManager`)

JavaScript `Map`s and plain keyed objects are modelled as association
lists with `Map.get = List.lookup` and `Map.set = setEntry` (replace the
existing entry in place, else append).  In-place mutation of an object
held by a map becomes a `setEntry` write-back of the updated record. -/

def setEntry {β : Type} : List (String × β) → String → β → List (String × β)
  | [], k, v => [(k, v)]
  | (k1, v1) :: rest, k, v =>
    if k1 = k then (k, v) :: rest else (k1, v1) :: setEntry rest k v

inductive Role where
  | user
  | assistant
deriving DecidableEq

structure ConversationMessage where
  role : Role
  content : String
  timestamp : Int
deriving DecidableEq

structure CallSession where
  callControlId : String
  phoneNumber : String
  startTime : Int
  lastActivity : Int
  conversationHistory : List ConversationMessage
  callDurationMs : Int
deriving DecidableEq

/-- One entry of `dailyCallStats` (`DailyCallStats[phoneNumber]`). -/
structure DailyStats where
  count : Nat
  lastReset : Int
deriving DecidableEq

structure VoiceSessionManager where
  activeSessions : List (String × CallSession)
  dailyCallStats : List (String × DailyStats)
deriving DecidableEq

/-- `VoiceSessionManager.isCallerAllowed`: fail closed on an empty
allowlist, else membership. -/
def isCallerAllowed (phoneNumber : String) (allowedCallers : List String) : Bool :=
  if allowedCallers.length = 0 then false
  else allowedCallers.contains phoneNumber

/-- `VoiceSessionManager.hasExceededDailyLimit`, with `Date.now()` as an
explicit argument; returns the result together with the manager state
after the call (the method mutates `dailyCallStats` when it resets a
window). -/
def hasExceededDailyLimit (mgr : VoiceSessionManager) (phoneNumber : String)
    (maxDailyCalls : Nat) (now : Int) : Bool × VoiceSessionManager :=
  match mgr.dailyCallStats.lookup phoneNumber with
  | none => (false, mgr)
  | some stats =>
    if now - stats.lastReset > 24 * 60 * 60 * 1000 then
      (false,
        { mgr with
            dailyCallStats :=
              setEntry mgr.dailyCallStats phoneNumber
                ({ count := 0, lastReset := now } : DailyStats) })
    else
      (decide (stats.count ≥ maxDailyCalls), mgr)

/-- `VoiceSessionManager.addMessage`: no-op on an unknown id; appends the
message, keeps only the last 40 entries (`slice(-40)`), and touches
`lastActivity`. -/
def addMessage (mgr : VoiceSessionManager) (callControlId : String) (role : Role)
    (content : String) (now : Int) : VoiceSessionManager :=
  match mgr.activeSessions.lookup callControlId with
  | none => mgr
  | some session =>
    let hist := session.conversationHistory ++ [({ role := role, content := content, timestamp := now } : ConversationMessage)]
    let hist2 := if hist.length > 40 then hist.drop (hist.length - 40) else hist
    { mgr with
        activeSessions :=
          setEntry mgr.activeSessions callControlId
            { session with conversationHistory := hist2, lastActivity := now } }

/-- Feed a sequence of `addMessage` calls for one call id. -/
def runAddMessages (cid : String) : VoiceSessionManager → List (Role × String × Int) →
    VoiceSessionManager
  | mgr, [] => mgr
  | mgr, m :: ms => runAddMessages cid (addMessage mgr cid m.1 m.2.1 m.2.2) ms

/-- The last `n` elements of a list (`Array.prototype.slice(-n)` keeps
exactly these). -/
def lastN (n : Nat) {α : Type} (l : List α) : List α := l.drop (l.length - n)

/-! ## Rate limiter (voice-agent.ts `checkRateLimit`) -/

structure RateLimitStats where
  sttCount : Nat
  ttsCount : Nat
  windowStart : Int
deriving DecidableEq

inductive RLKind where
  | stt
  | tts
deriving DecidableEq

def MAX_STT_PER_SESSION_PER_MINUTE : Nat := 30

def MAX_TTS_PER_SESSION_PER_MINUTE : Nat := 50

/-- `type === 'stt' ? MAX_STT_PER_SESSION_PER_MINUTE : MAX_TTS_PER_SESSION_PER_MINUTE`. -/
def rlMax : RLKind → Nat
  | .stt => MAX_STT_PER_SESSION_PER_MINUTE
  | .tts => MAX_TTS_PER_SESSION_PER_MINUTE

/-- `type === 'stt' ? stats.sttCount : stats.ttsCount`. -/
def rlCount : RLKind → RateLimitStats → Nat
  | .stt, s => s.sttCount
  | .tts, s => s.ttsCount

/-- `if (type === 'stt') stats.sttCount++; else stats.ttsCount++`. -/
def rlBump : RLKind → RateLimitStats → RateLimitStats
  | .stt, s => { s with sttCount := s.sttCount + 1 }
  | .tts, s => { s with ttsCount := s.ttsCount + 1 }

/-- The tail of `checkRateLimit` after the lazy create/reset: compare
the current count of `type` against the cap, return `false` without
incrementing at the cap, else increment (an in-place `++` on the object
held by the map, modelled as a write-back). -/
def rlProceed (limits : List (String × RateLimitStats)) (sessionId : String) (type : RLKind)
    (stats : RateLimitStats) : Bool × List (String × RateLimitStats) :=
  if rlCount type stats ≥ rlMax type then (false, limits)
  else (true, setEntry limits sessionId (rlBump type stats))

/-- `checkRateLimit(sessionId, type)` over the `sessionRateLimits` map:
lazily create the window when absent, reset it when more than 60 s have
passed since `windowStart` (inserting the fresh stats into the map in
both cases, as `sessionRateLimits.set` does), then check and consume. -/
def checkRateLimit (limits : List (String × RateLimitStats)) (sessionId : String)
    (type : RLKind) (now : Int) : Bool × List (String × RateLimitStats) :=
  match limits.lookup sessionId with
  | none =>
    rlProceed (setEntry limits sessionId ({ sttCount := 0, ttsCount := 0, windowStart := now } : RateLimitStats))
      sessionId type ({ sttCount := 0, ttsCount := 0, windowStart := now } : RateLimitStats)
  | some stats =>
    if now - stats.windowStart > 60000 then
      rlProceed (setEntry limits sessionId ({ sttCount := 0, ttsCount := 0, windowStart := now } : RateLimitStats))
        sessionId type ({ sttCount := 0, ttsCount := 0, windowStart := now } : RateLimitStats)
    else rlProceed limits sessionId type stats

/-- Consecutive `checkRateLimit` calls for one session and kind at the
given times, collecting the returned booleans. -/
def runRateLimit (sessionId : String) (type : RLKind) :
    List (String × RateLimitStats) → List Int →
    List (String × RateLimitStats) × List Bool
  | limits, [] => (limits, [])
  | limits, t :: ts =>
    match checkRateLimit limits sessionId type t with
    | (ok, limits1) =>
      match runRateLimit sessionId type limits1 ts with
      | (limits2, oks) => (limits2, ok :: oks)

/-- Add `n` to the `type` counter (the result of `n` consecutive bumps). -/
def rlAddCount : RLKind → Nat → RateLimitStats → RateLimitStats
  | .stt, n, s => { s with sttCount := s.sttCount + n }
  | .tts, n, s => { s with ttsCount := s.ttsCount + n }

/-! ## Frame routing (voice-agent.ts `handleTelnyxWsMessage`)

The handler parses the WebSocket text as JSON and reads
`message.type` / `message.media.payload`; the parsed message is modelled
as a record, and the base64 payload as the already-decoded μ-law byte
list (base64 is a transport encoding of the media layer).  The VAD
instance map keyed by call id is `vadInstances`.  On `speech_end` the
source awaits the external transcription/response/synthesis
collaborators; that round trip leaves the modelled core, so the handler
returns the audio buffer it would hand to transcription.  Those later
stages mutate per-call state only through `checkRateLimit` and
`addMessage`, modelled above. -/

structure WsMedia where
  payload : List Nat
deriving DecidableEq

structure WsMessage where
  type : String
  media : Option WsMedia
deriving DecidableEq

structure OrchestratorState where
  vadInstances : List (String × VADState)
  sessions : VoiceSessionManager
  sessionRateLimits : List (String × RateLimitStats)
deriving DecidableEq

inductive HandlerOutcome where
  | ignored
  | handled (speechEnd : Option (List Int))
deriving DecidableEq

/-- `handleTelnyxWsMessage`: non-media messages and frames for a call id
with no VAD instance return immediately with no state change; otherwise
the payload is decoded and fed to the call's VAD. -/
def handleTelnyxWsMessage (st : OrchestratorState) (callControlId : String)
    (message : WsMessage) (now : Int) : OrchestratorState × HandlerOutcome :=
  if message.type ≠ "media" ∨ message.media = none then (st, .ignored)
  else
    match st.vadInstances.lookup callControlId with
    | none => (st, .ignored)
    | some vad =>
      let payload := (message.media.getD ({ payload := [] } : WsMedia)).payload
      let pcm16Audio := pcm16Samples (mulawToPCM16 payload)
      match VoiceActivityDetector.process defaultVADConfig vad now pcm16Audio with
      | (vad1, result) =>
        let st1 := { st with vadInstances := setEntry st.vadInstances callControlId vad1 }
        match result.event, result.audioBuffer with
        | some .speech_end, some buf => (st1, .handled (some buf))
        | _, _ => (st1, .handled none)

/-! ## Theorems -/

/-! ### Codec lemmas -/

theorem mulawDecodeSample_lower (b : Nat) : -32768 ≤ mulawDecodeSample b := by
  unfold mulawDecodeSample
  exact le_max_left _ _

theorem mulawDecodeSample_upper (b : Nat) : mulawDecodeSample b ≤ 32767 := by
  unfold mulawDecodeSample
  exact max_le (by norm_num) (min_le_left _ _)

theorem pcm16Samples_nil : pcm16Samples [] = [] := rfl

theorem pcm16Samples_cons2 (b0 b1 : Nat) (l : List Nat) :
    pcm16Samples (b0 :: b1 :: l) = readInt16LE b0 b1 :: pcm16Samples l := rfl

theorem readInt16LE_writeInt16LE (v : Int) (h1 : -32768 ≤ v) (h2 : v ≤ 32767) :
    readInt16LE ((v % 65536).toNat % 256) ((v % 65536).toNat / 256) = v := by
  unfold readInt16LE
  split_ifs with h
  · omega
  · omega

theorem pcm16Samples_write_append (v : Int) (l : List Nat)
    (h1 : -32768 ≤ v) (h2 : v ≤ 32767) :
    pcm16Samples (writeInt16LE v ++ l) = v :: pcm16Samples l := by
  unfold writeInt16LE
  rw [List.cons_append, List.cons_append, List.nil_append, pcm16Samples_cons2,
    readInt16LE_writeInt16LE v h1 h2]

set_option maxRecDepth 4000 in
theorem mulawDecodeSample_eq_spec : ∀ b < 256, mulawDecodeSample b = mulawDecodeSampleSpec b := by
  decide

theorem mulawToPCM16_length (bs : List Nat) :
    (mulawToPCM16 bs).length = 2 * bs.length := by
  induction bs with
  | nil => rfl
  | cons b rest ih =>
    simp only [mulawToPCM16, writeInt16LE, List.length_append, List.length_cons, ih]
    simp [Nat.mul_succ]
    omega

theorem pcm16Samples_mulawToPCM16 (bs : List Nat) :
    pcm16Samples (mulawToPCM16 bs) = bs.map mulawDecodeSample := by
  induction bs with
  | nil => rfl
  | cons b rest ih =>
    simp only [mulawToPCM16, List.map_cons]
    rw [pcm16Samples_write_append _ _ (mulawDecodeSample_lower b) (mulawDecodeSample_upper b), ih]

/-! ## Claim theorems for the codec -/

/-- C2: `mulawToPCM16` decodes every byte by inverting all bits,
extracting a 1-bit sign, 3-bit exponent and 4-bit mantissa,
reconstructing `((mantissa << 3) + 0x84) << exponent`, negating exactly
when the sign bit marks a negative sample, and clamping to
`[-32768, 32767]`; the output has exactly twice the byte length of the
input. -/
theorem mulawToPCM16_correct (bs : List Nat) (hb : ∀ b ∈ bs, b < 256) :
    (mulawToPCM16 bs).length = 2 * bs.length ∧
    pcm16Samples (mulawToPCM16 bs) = bs.map mulawDecodeSampleSpec := by
  refine ⟨mulawToPCM16_length bs, ?_⟩
  rw [pcm16Samples_mulawToPCM16]
  exact List.map_congr_left (fun b hmem => mulawDecodeSample_eq_spec b (hb b hmem))

theorem mulawToPCM16_correct_witness :
    (∀ b ∈ [0, 0x7F, 0x80, 0xFF], b < 256) ∧
    ((mulawToPCM16 [0, 0x7F, 0x80, 0xFF]).length = 2 * ([0, 0x7F, 0x80, 0xFF] : List Nat).length ∧
     pcm16Samples (mulawToPCM16 [0, 0x7F, 0x80, 0xFF]) =
       [0, 0x7F, 0x80, 0xFF].map mulawDecodeSampleSpec) :=
  ⟨by decide, mulawToPCM16_correct [0, 0x7F, 0x80, 0xFF] (by decide)⟩

/-- C1: the claimed codec round-trip fails in the code.  The decoder
negates a sample when the (re-inverted) sign bit is 0, while the encoder
marks negative samples by setting `0x80` before the final inversion, so
`mulawToPCM16 (pcm16ToMulaw x)` flips the sign of every sample: the
single-sample buffer `[0xFF, 0x7F]` (the sample 32767) round-trips to
the sample -32256, an error of 65023, far outside any μ-law
quantization bound. -/
theorem roundtrip_sign_flip :
    readInt16LE 0xFF 0x7F = 32767 ∧
    pcm16Samples (mulawToPCM16 (pcm16ToMulaw [0xFF, 0x7F])) = [-32256] := by
  decide

/-! ### VAD branch lemmas -/

theorem runVAD_nil (cfg : VADConfig) (s : VADState) : runVAD cfg s [] = (s, []) := rfl

theorem runVAD_cons (cfg : VADConfig) (s : VADState) (f : Int × List Int)
    (fs : List (Int × List Int)) :
    runVAD cfg s (f :: fs) =
      ((runVAD cfg (VoiceActivityDetector.process cfg s f.1 f.2).1 fs).1,
       (VoiceActivityDetector.process cfg s f.1 f.2).2.event ::
         (runVAD cfg (VoiceActivityDetector.process cfg s f.1 f.2).1 fs).2) := by
  rcases hp : VoiceActivityDetector.process cfg s f.1 f.2 with ⟨s1, r⟩
  rcases hr : runVAD cfg s1 fs with ⟨s2, evs⟩
  simp [runVAD, hp, hr]

theorem runVAD_append (cfg : VADConfig) (xs ys : List (Int × List Int)) :
    ∀ s, runVAD cfg s (xs ++ ys) =
      ((runVAD cfg (runVAD cfg s xs).1 ys).1,
       (runVAD cfg s xs).2 ++ (runVAD cfg (runVAD cfg s xs).1 ys).2) := by
  induction xs with
  | nil => intro s; simp [runVAD_nil]
  | cons f fs ih => intro s; simp [runVAD_cons, ih]

theorem process_idle_quiet (cfg : VADConfig) (s : VADState) (now : Int) (c : List Int)
    (hl : isSpeechEnergy cfg c = false) (hs : s.isSpeaking = false) :
    VoiceActivityDetector.process cfg s now c =
      (s, { event := none, energySq := calculateEnergySq c, audioBuffer := none }) := by
  simp [VoiceActivityDetector.process, hl, hs]

theorem process_start (cfg : VADConfig) (s : VADState) (now : Int) (c : List Int)
    (hl : isSpeechEnergy cfg c = true) (hs : s.isSpeaking = false) :
    VoiceActivityDetector.process cfg s now c =
      ({ isSpeaking := true, speechStartTime := now, lastSpeechTime := now,
         audioBuffer := [c], audioBufferSize := chunkBytes c },
       { event := some .speech_start, energySq := calculateEnergySq c,
         audioBuffer := none }) := by
  simp [VoiceActivityDetector.process, hl, hs]

/-- The `Speaking` fields that every loud frame forces, whichever way the
buffer-cap check went. -/
theorem process_cont (cfg : VADConfig) (s : VADState) (now : Int) (c : List Int)
    (hl : isSpeechEnergy cfg c = true) (hs : s.isSpeaking = true) :
    (VoiceActivityDetector.process cfg s now c).1.isSpeaking = true ∧
    (VoiceActivityDetector.process cfg s now c).1.speechStartTime = s.speechStartTime ∧
    (VoiceActivityDetector.process cfg s now c).1.lastSpeechTime = now ∧
    (VoiceActivityDetector.process cfg s now c).2.event = some .speaking := by
  simp only [VoiceActivityDetector.process, hl, hs]
  split_ifs <;> simp_all

theorem process_pause (cfg : VADConfig) (s : VADState) (now : Int) (c : List Int)
    (hl : isSpeechEnergy cfg c = false) (hs : s.isSpeaking = true)
    (hsil : now - s.lastSpeechTime < (cfg.silenceDurationMs : Int)) :
    (VoiceActivityDetector.process cfg s now c).1.isSpeaking = true ∧
    (VoiceActivityDetector.process cfg s now c).1.speechStartTime = s.speechStartTime ∧
    (VoiceActivityDetector.process cfg s now c).1.lastSpeechTime = s.lastSpeechTime ∧
    (VoiceActivityDetector.process cfg s now c).2.event = some .speaking := by
  simp only [VoiceActivityDetector.process, hl, hs, if_true, Bool.false_eq_true, if_false]
  rw [if_neg (by omega)]
  split <;> simp_all

theorem process_end (cfg : VADConfig) (s : VADState) (now : Int) (c : List Int)
    (hl : isSpeechEnergy cfg c = false) (hs : s.isSpeaking = true)
    (hsil : (cfg.silenceDurationMs : Int) ≤ now - s.lastSpeechTime)
    (hdur : (cfg.minSpeechDurationMs : Int) ≤ now - s.speechStartTime) :
    VoiceActivityDetector.process cfg s now c =
      ({ s with isSpeaking := false, audioBuffer := [], audioBufferSize := 0 },
       { event := some .speech_end, energySq := calculateEnergySq c,
         audioBuffer := some s.audioBuffer.flatten }) := by
  simp only [VoiceActivityDetector.process, hl, hs, if_true, Bool.false_eq_true, if_false]
  rw [if_pos (by omega), if_pos (by omega)]

/-! ### C4: buffer-cap invariant -/

theorem initial_sizeInv : VADState.initial.sizeInv := by
  constructor <;> simp [VADState.initial, VADState.sizeInv, maxBufferBytes]

theorem process_preserves_sizeInv (cfg : VADConfig) (s : VADState) (now : Int)
    (c : List Int) (hc : chunkBytes c ≤ maxBufferBytes) (h : s.sizeInv) :
    (VoiceActivityDetector.process cfg s now c).1.sizeInv := by
  obtain ⟨h1, h2⟩ := h
  unfold VoiceActivityDetector.process VADState.sizeInv
  split_ifs <;> simp_all

theorem runVAD_preserves_sizeInv (cfg : VADConfig) (frames : List (Int × List Int)) :
    ∀ s, (∀ f ∈ frames, chunkBytes f.2 ≤ maxBufferBytes) → s.sizeInv →
      (runVAD cfg s frames).1.sizeInv := by
  induction frames with
  | nil => intro s _ h; exact h
  | cons f fs ih =>
    intro s hall h
    rw [runVAD_cons]
    exact ih _ (fun g hg => hall g (List.mem_cons_of_mem f hg))
      (process_preserves_sizeInv cfg s f.1 f.2 (hall f (List.mem_cons_self f fs)) h)

theorem sumSquares_replicate (n : Nat) (v : Int) :
    sumSquares (List.replicate n v) = n * (v * v) := by
  simp [sumSquares, List.map_replicate, List.sum_replicate, nsmul_eq_mul]

/-- C4 (amended): for every sequence of frames in which each single
frame is at most the 10 MiB ceiling, the detector's accumulated byte
count equals the total length of the buffered chunks and never exceeds
the ceiling; a frame whose addition would exceed the ceiling is dropped
rather than appended, and `process` is a total function (no exception).
The amendment restricts the claim to per-frame sizes within the cap:
the `speech_start` branch stores the incoming chunk without a cap
check, so a single over-cap frame violates the original claim (see the
counterexample). -/
theorem vad_buffer_cap (cfg : VADConfig) (frames : List (Int × List Int))
    (h : ∀ f ∈ frames, chunkBytes f.2 ≤ maxBufferBytes) :
    (runVAD cfg VADState.initial frames).1.audioBufferSize =
      (((runVAD cfg VADState.initial frames).1.audioBuffer).map chunkBytes).sum ∧
    (runVAD cfg VADState.initial frames).1.audioBufferSize ≤ maxBufferBytes :=
  runVAD_preserves_sizeInv cfg frames VADState.initial h initial_sizeInv

theorem vad_buffer_cap_witness :
    (runVAD defaultVADConfig VADState.initial [((0 : Int), [(1000 : Int)]), (20, [0])]).1.audioBufferSize =
      (((runVAD defaultVADConfig VADState.initial [((0 : Int), [(1000 : Int)]), (20, [0])]).1.audioBuffer).map chunkBytes).sum ∧
    (runVAD defaultVADConfig VADState.initial [((0 : Int), [(1000 : Int)]), (20, [0])]).1.audioBufferSize ≤
      maxBufferBytes :=
  vad_buffer_cap defaultVADConfig [((0 : Int), [(1000 : Int)]), (20, [0])] (by decide)

/-- C4 is false as stated: a single loud frame of 10485762 bytes fed to
a fresh detector is stored whole by the `speech_start` branch (which
performs no cap check), leaving `audioBufferSize = 10485762`, above the
10 MiB = 10485760 ceiling. -/
theorem vad_buffer_cap_counterexample :
    maxBufferBytes <
      (VoiceActivityDetector.process defaultVADConfig VADState.initial 0 oversizedChunk).1.audioBufferSize := by
  have hlen : oversizedChunk.length = 5242881 := by
    rw [oversizedChunk]
    exact List.length_replicate _ _
  have hss : sumSquares oversizedChunk = (5242881 : Int) * (1000 * 1000) := by
    rw [oversizedChunk, sumSquares_replicate]
    norm_num
  have hl : isSpeechEnergy defaultVADConfig oversizedChunk = true := by
    unfold isSpeechEnergy
    rw [decide_eq_true_eq, hss, hlen]
    norm_num [defaultVADConfig]
  rw [process_start defaultVADConfig VADState.initial 0 oversizedChunk hl rfl]
  show maxBufferBytes < chunkBytes oversizedChunk
  rw [chunkBytes, hlen]
  norm_num [maxBufferBytes]

/-! ### C3: VAD segmentation -/

theorem countEvent_cons (x : Option VADEvent) (evs : List (Option VADEvent)) (e : VADEvent) :
    countEvent (x :: evs) e = countEvent evs e + if x = some e then 1 else 0 := by
  simp [countEvent, List.count_cons, beq_iff_eq]

theorem countEvent_append (xs ys : List (Option VADEvent)) (e : VADEvent) :
    countEvent (xs ++ ys) e = countEvent xs e + countEvent ys e := by
  simp [countEvent, List.count_append]

theorem countEvent_replicate (k : Nat) (x : Option VADEvent) (e : VADEvent) :
    countEvent (List.replicate k x) e = if x = some e then k else 0 := by
  induction k with
  | zero => simp [countEvent]
  | succ n ih =>
    rw [List.replicate_succ, countEvent_cons, ih]
    split <;> omega

theorem runVAD_quiet_idle (cfg : VADConfig) (q : List Int) (d : Int)
    (hq : isSpeechEnergy cfg q = false) :
    ∀ (k : Nat) (T : Int) (s : VADState), s.isSpeaking = false →
      runVAD cfg s (framesFrom T d q k) = (s, List.replicate k none) := by
  intro k
  induction k with
  | zero => intro T s _; simp [framesFrom, runVAD_nil]
  | succ n ih =>
    intro T s hs
    rw [framesFrom, runVAD_cons]
    simp only []
    rw [process_idle_quiet cfg s T q hq hs]
    simp only []
    rw [ih (T + d) s hs, List.replicate_succ]

theorem SpState_time_congr {SS L M : Int} {s : VADState} (h : SpState SS L s) (he : L = M) :
    SpState SS M s := he ▸ h

theorem runVAD_loud_speaking (cfg : VADConfig) (l : List Int) (d : Int)
    (hl : isSpeechEnergy cfg l = true) :
    ∀ (k : Nat) (T SS L : Int) (s : VADState), 1 ≤ k → SpState SS L s →
      SpState SS (T + ((k : Int) - 1) * d) (runVAD cfg s (framesFrom T d l k)).1 ∧
      (runVAD cfg s (framesFrom T d l k)).2 = List.replicate k (some .speaking) := by
  intro k
  induction k with
  | zero => intro T SS L s hk; omega
  | succ n ih =>
    intro T SS L s _ hsp
    obtain ⟨p1, p2, p3, p4⟩ := process_cont cfg s T l hl hsp.1
    have hsp1 : SpState SS T (VoiceActivityDetector.process cfg s T l).1 :=
      ⟨p1, p2.trans hsp.2.1, p3⟩
    rw [framesFrom, runVAD_cons]
    simp only []
    cases n with
    | zero =>
      refine ⟨SpState_time_congr hsp1 (by push_cast; ring), ?_⟩
      rw [p4]
      rfl
    | succ m =>
      obtain ⟨ih1, ih2⟩ := ih (T + d) SS T _ (by omega) hsp1
      refine ⟨SpState_time_congr ih1 (by push_cast; ring), ?_⟩
      rw [ih2, p4]
      simp [List.replicate_succ]

theorem runVAD_quiet_end (q : List Int) (d : Int)
    (hq : isSpeechEnergy defaultVADConfig q = false) :
    ∀ (c : Nat) (T SS L : Int) (s : VADState), 1 ≤ c → SpState SS L s → SS ≤ L →
      L + 1500 ≤ T + ((c : Int) - 1) * d →
      countEvent (runVAD defaultVADConfig s (framesFrom T d q c)).2 .speech_end = 1 ∧
      countEvent (runVAD defaultVADConfig s (framesFrom T d q c)).2 .speech_start = 0 := by
  intro c
  induction c with
  | zero => intro T SS L s h; omega
  | succ n ih =>
    intro T SS L s _ hsp hssl hend
    obtain ⟨hs1, hs2, hs3⟩ := hsp
    rw [framesFrom, runVAD_cons]
    simp only []
    by_cases hsil : (1500 : Int) ≤ T - L
    · have hpe := process_end defaultVADConfig s T q hq hs1
        (by show (1500 : Int) ≤ T - s.lastSpeechTime; omega)
        (by show (300 : Int) ≤ T - s.speechStartTime; omega)
      rw [hpe]
      simp only []
      rw [runVAD_quiet_idle defaultVADConfig q d hq n (T + d) _ rfl]
      simp only []
      rw [countEvent_cons, countEvent_cons, countEvent_replicate, countEvent_replicate]
      simp
    · obtain ⟨p1, p2, p3, p4⟩ := process_pause defaultVADConfig s T q hq hs1
        (by show T - s.lastSpeechTime < ((defaultVADConfig.silenceDurationMs : Nat) : Int); rw [hs3]; norm_num [defaultVADConfig]; omega)
      have hn1 : 1 ≤ n := by
        rcases Nat.eq_zero_or_pos n with h0 | h1
        · subst h0; simp at hend; omega
        · exact h1
      have harith : T + d + ((n : Int) - 1) * d = T + (((n : Nat) + 1 : Int) - 1) * d := by
        ring
      obtain ⟨ih1, ih2⟩ := ih (T + d) SS L _ hn1 ⟨p1, p2.trans hs2, p3.trans hs3⟩ hssl
        (by rw [harith]; exact_mod_cast hend)
      rw [countEvent_cons, countEvent_cons, p4]
      simp [ih1, ih2]

/-- C3 (amended): on a fresh detector with the default configuration
(threshold 500, silence 1500 ms, minimum speech 300 ms), a sequence of
N ms of quiet frames, then M ms (at least two frames) of loud frames,
then S ms of quiet frames with S ≥ 1500 ms yields exactly one
`speech_start`, one or more `speaking` events, and exactly one
`speech_end` — regardless of whether M reaches the 300 ms minimum
speech duration.  (The source measures the segment duration up to the
frame that detects end-of-silence, so the duration always includes the
trailing ≥ 1500 ms ≥ 300 ms of silence and the minimum-speech filter
never discards the segment; the original claim's "zero `speech_end`
when M < minimum" is refuted by the counterexample.) -/
theorem vad_segmentation (d a b c : Nat) (q l : List Int)
    (hb : 2 ≤ b) (hc : 1500 ≤ c * d)
    (hq : isSpeechEnergy defaultVADConfig q = false)
    (hl : isSpeechEnergy defaultVADConfig l = true) :
    countEvent (runVAD defaultVADConfig VADState.initial (threePhaseFrames d a b c q l)).2
        .speech_start = 1 ∧
    countEvent (runVAD defaultVADConfig VADState.initial (threePhaseFrames d a b c q l)).2
        .speech_end = 1 ∧
    1 ≤ countEvent (runVAD defaultVADConfig VADState.initial (threePhaseFrames d a b c q l)).2
        .speaking := by
  have hc1 : 1 ≤ c := by
    rcases Nat.eq_zero_or_pos c with rfl | h
    · simp at hc
    · exact h
  obtain ⟨n, rfl⟩ : ∃ n, b = n + 2 := ⟨b - 2, by omega⟩
  obtain ⟨m, rfl⟩ : ∃ m, c = m + 1 := ⟨c - 1, by omega⟩
  unfold threePhaseFrames
  rw [runVAD_append]
  rw [runVAD_quiet_idle defaultVADConfig q (d : Int) hq a 0 VADState.initial rfl]
  simp only []
  rw [runVAD_append]
  rw [framesFrom, runVAD_cons]
  rw [process_start defaultVADConfig VADState.initial ((a * d : Nat) : Int) l hl rfl]
  simp only []
  obtain ⟨hB1, hB2⟩ := runVAD_loud_speaking defaultVADConfig l (d : Int) hl (n + 1)
    (((a * d : Nat) : Int) + (d : Int)) ((a * d : Nat) : Int) ((a * d : Nat) : Int)
    { isSpeaking := true, speechStartTime := ((a * d : Nat) : Int),
      lastSpeechTime := ((a * d : Nat) : Int), audioBuffer := [l],
      audioBufferSize := chunkBytes l }
    (by omega) ⟨rfl, rfl, rfl⟩
  have hSSL : ((a * d : Nat) : Int) ≤
      (((a * d : Nat) : Int) + (d : Int)) + (((n + 1 : Nat) : Int) - 1) * (d : Int) := by
    have hnn : (0 : Int) ≤ ((n : Nat) : Int) * (d : Int) :=
      mul_nonneg (Int.natCast_nonneg n) (Int.natCast_nonneg d)
    have he : (((a * d : Nat) : Int) + (d : Int)) + (((n + 1 : Nat) : Int) - 1) * (d : Int) =
        ((a * d : Nat) : Int) + (d : Int) + ((n : Nat) : Int) * (d : Int) := by
      push_cast
      ring
    rw [he]
    have hd0 : (0 : Int) ≤ (d : Int) := Int.natCast_nonneg d
    linarith
  have hHyp : ((((a * d : Nat) : Int) + (d : Int)) + (((n + 1 : Nat) : Int) - 1) * (d : Int)) + 1500 ≤
      (((a + (n + 2)) * d : Nat) : Int) + (((m + 1 : Nat) : Int) - 1) * (d : Int) := by
    have hcast : (1500 : Int) ≤ (((m + 1) * d : Nat) : Int) := by exact_mod_cast hc
    push_cast
    push_cast at hcast
    nlinarith [hcast]
  obtain ⟨hC1, hC2⟩ := runVAD_quiet_end q (d : Int) hq (m + 1)
    (((a + (n + 2)) * d : Nat) : Int) ((a * d : Nat) : Int)
    ((((a * d : Nat) : Int) + (d : Int)) + (((n + 1 : Nat) : Int) - 1) * (d : Int))
    _ (by omega) hB1 hSSL hHyp
  rw [hB2]
  refine ⟨?_, ?_, ?_⟩
  · simp only [countEvent_append, countEvent_cons, countEvent_replicate, hC2]
    simp
  · simp only [countEvent_append, countEvent_cons, countEvent_replicate, hC1]
    simp
  · simp only [countEvent_append, countEvent_cons, countEvent_replicate]
    simp
    omega

/-- C3 is false as stated: with the default configuration, the
sequence `c3CounterFrames` (40 ms below threshold, 100 ms above, then
1500 ms below — M = 100 ms, well under the 300 ms minimum speech
duration) still produces one `speech_end` where the claim demands
zero, because the end-of-segment duration check `now - speechStartTime`
is made at the frame that detects 1500 ms of silence and therefore
always measures at least 1500 ms ≥ 300 ms. -/
theorem vad_segmentation_counterexample :
    countEvent (runVAD defaultVADConfig VADState.initial c3CounterFrames).2 .speech_end = 1 ∧
    countEvent (runVAD defaultVADConfig VADState.initial c3CounterFrames).2 .speech_start = 1 := by
  decide

theorem vad_segmentation_witness :
    countEvent (runVAD defaultVADConfig VADState.initial (threePhaseFrames 20 2 5 75 [0] [1000])).2
        .speech_start = 1 ∧
    countEvent (runVAD defaultVADConfig VADState.initial (threePhaseFrames 20 2 5 75 [0] [1000])).2
        .speech_end = 1 ∧
    1 ≤ countEvent (runVAD defaultVADConfig VADState.initial (threePhaseFrames 20 2 5 75 [0] [1000])).2
        .speaking :=
  vad_segmentation 20 2 5 75 [0] [1000] (by decide) (by decide) (by decide) (by decide)

/-! ### C5: allowlist fails closed -/

/-- C5: `isCallerAllowed` fails closed — with an empty allowlist every
phone number is rejected (an empty list is never read as allow-all),
and with a non-empty allowlist it returns true exactly when the number
is a member of the list. -/
theorem isCallerAllowed_fail_closed :
    (∀ p : String, isCallerAllowed p [] = false) ∧
    (∀ (p : String) (allowed : List String), allowed ≠ [] →
      (isCallerAllowed p allowed = true ↔ p ∈ allowed)) := by
  constructor
  · intro p
    rfl
  · intro p allowed hne
    unfold isCallerAllowed
    rw [if_neg (by simpa using hne)]
    simp

theorem isCallerAllowed_fail_closed_witness :
    isCallerAllowed "+40700000000" [] = false ∧
    (isCallerAllowed "+40700000000" ["+40711111111", "+40700000000"] = true ↔
      "+40700000000" ∈ ["+40711111111", "+40700000000"]) :=
  ⟨isCallerAllowed_fail_closed.1 "+40700000000",
   isCallerAllowed_fail_closed.2 "+40700000000" ["+40711111111", "+40700000000"] (by decide)⟩

/-! ### C7 and C10: daily-call ledger -/

/-- C7: a ledger entry whose `lastReset` lies more than 24 h in the past
is lazily reset — count set to 0 and `lastReset` to now — before the
limit comparison, and `hasExceededDailyLimit` returns false for every
maximum. -/
theorem dailyLimit_lazy_reset (mgr : VoiceSessionManager) (phoneNumber : String)
    (maxDailyCalls : Nat) (now : Int) (stats : DailyStats)
    (hfind : mgr.dailyCallStats.lookup phoneNumber = some stats)
    (hstale : now - stats.lastReset > 24 * 60 * 60 * 1000) :
    hasExceededDailyLimit mgr phoneNumber maxDailyCalls now =
      (false,
        { mgr with
            dailyCallStats :=
              setEntry mgr.dailyCallStats phoneNumber
                ({ count := 0, lastReset := now } : DailyStats) }) := by
  unfold hasExceededDailyLimit
  rw [hfind]
  simp only [if_pos hstale]

theorem dailyLimit_lazy_reset_witness :
    hasExceededDailyLimit
        ({ activeSessions := [],
           dailyCallStats := [("+40700000000", { count := 49, lastReset := 0 })] } :
          VoiceSessionManager) "+40700000000" 0 90000000 =
      (false,
        { ({ activeSessions := [],
             dailyCallStats := [("+40700000000", { count := 49, lastReset := 0 })] } :
            VoiceSessionManager) with
            dailyCallStats :=
              setEntry [("+40700000000", { count := 49, lastReset := 0 })] "+40700000000"
                ({ count := 0, lastReset := 90000000 } : DailyStats) }) :=
  dailyLimit_lazy_reset _ "+40700000000" 0 90000000 { count := 49, lastReset := 0 }
    (by decide) (by decide)

/-- C10 (implicit): a phone number with no ledger entry is never over
the daily limit — `hasExceededDailyLimit` returns false for every
maximum, including 0, and leaves the manager unchanged. -/
theorem dailyLimit_unknown_caller (mgr : VoiceSessionManager) (phoneNumber : String)
    (maxDailyCalls : Nat) (now : Int)
    (hfind : mgr.dailyCallStats.lookup phoneNumber = none) :
    hasExceededDailyLimit mgr phoneNumber maxDailyCalls now = (false, mgr) := by
  unfold hasExceededDailyLimit
  rw [hfind]

theorem dailyLimit_unknown_caller_witness :
    hasExceededDailyLimit
        ({ activeSessions := [], dailyCallStats := [] } : VoiceSessionManager)
        "+40700000000" 0 12345 =
      (false, { activeSessions := [], dailyCallStats := [] }) :=
  dailyLimit_unknown_caller _ "+40700000000" 0 12345 (by decide)

/-! ### C9: stale frames are ignored -/

/-- C9: an inbound media frame for a call id with no registered VAD
instance (the call is not in the `Active` state) is ignored: the
handler returns without an error and without touching the session,
VAD, rate-limit, or ledger state. -/
theorem staleFrame_ignored (st : OrchestratorState) (callControlId : String)
    (message : WsMessage) (now : Int)
    (hvad : st.vadInstances.lookup callControlId = none) :
    handleTelnyxWsMessage st callControlId message now = (st, .ignored) := by
  unfold handleTelnyxWsMessage
  split_ifs with h
  · rfl
  · rw [hvad]

theorem staleFrame_ignored_witness :
    handleTelnyxWsMessage
        ({ vadInstances := [],
           sessions := { activeSessions := [], dailyCallStats := [] },
           sessionRateLimits := [] } : OrchestratorState)
        "v3:stale-call-id" ({ type := "media", media := some { payload := [0x7F, 0xFF] } } : WsMessage)
        1000 =
      ({ vadInstances := [],
         sessions := { activeSessions := [], dailyCallStats := [] },
         sessionRateLimits := [] }, .ignored) :=
  staleFrame_ignored _ "v3:stale-call-id" _ 1000 (by decide)

/-! ### C8: conversation-history cap -/

theorem lookup_setEntry {β : Type} (l : List (String × β)) (k : String) (v : β) :
    (setEntry l k v).lookup k = some v := by
  induction l with
  | nil => simp [setEntry, List.lookup]
  | cons kv rest ih =>
    rcases kv with ⟨k1, v1⟩
    unfold setEntry
    by_cases h : k1 = k
    · simp [h, List.lookup]
    · have hbeq : (k == k1) = false := by
        simp only [beq_eq_false_iff_ne]
        exact fun he => h he.symm
      simp only [if_neg h, List.lookup, hbeq]
      exact ih

theorem lastN_of_le {α : Type} (n : Nat) (l : List α) (h : l.length ≤ n) :
    lastN n l = l := by
  unfold lastN
  rw [Nat.sub_eq_zero_of_le h, List.drop_zero]

theorem lastN_length_le {α : Type} (n : Nat) (l : List α) : (lastN n l).length ≤ n := by
  unfold lastN
  rw [List.length_drop]
  omega

theorem lastN_append_lastN {α : Type} (n : Nat) (l r : List α) :
    lastN n (lastN n l ++ r) = lastN n (l ++ r) := by
  unfold lastN
  rw [List.drop_append_eq_append_drop, List.drop_append_eq_append_drop, List.drop_drop,
    List.length_append, List.length_append, List.length_drop]
  congr 1
  · congr 1
    omega
  · congr 1
    omega

theorem addMessage_history (mgr : VoiceSessionManager) (cid : String) (session : CallSession)
    (role : Role) (content : String) (now : Int)
    (hfind : mgr.activeSessions.lookup cid = some session)
    (hlen : session.conversationHistory.length ≤ 40) :
    (addMessage mgr cid role content now).activeSessions.lookup cid =
      some { session with
              conversationHistory :=
                lastN 40 (session.conversationHistory ++
                  [({ role := role, content := content, timestamp := now } : ConversationMessage)]),
              lastActivity := now } := by
  unfold addMessage
  rw [hfind]
  simp only []
  rw [lookup_setEntry]
  congr 2
  split_ifs with hgt
  · rfl
  · rw [lastN_of_le]
    simp only [List.length_append, List.length_cons, List.length_nil] at hgt ⊢
    omega

theorem runAddMessages_history (cid : String) :
    ∀ (msgs : List (Role × String × Int)) (mgr : VoiceSessionManager) (session : CallSession),
      mgr.activeSessions.lookup cid = some session →
      session.conversationHistory.length ≤ 40 →
      ∃ session2 : CallSession,
        (runAddMessages cid mgr msgs).activeSessions.lookup cid = some session2 ∧
        session2.conversationHistory =
          lastN 40 (session.conversationHistory ++
            msgs.map (fun m =>
              ({ role := m.1, content := m.2.1, timestamp := m.2.2 } : ConversationMessage))) ∧
        session2.conversationHistory.length ≤ 40 := by
  intro msgs
  induction msgs with
  | nil =>
    intro mgr session hfind hlen
    refine ⟨session, hfind, ?_, hlen⟩
    rw [List.map_nil, List.append_nil, lastN_of_le 40 _ hlen]
  | cons m ms ih =>
    intro mgr session hfind hlen
    have hstep := addMessage_history mgr cid session m.1 m.2.1 m.2.2 hfind hlen
    obtain ⟨session2, hfind2, hhist2, hlen2⟩ :=
      ih (addMessage mgr cid m.1 m.2.1 m.2.2) _ hstep (by simp; exact lastN_length_le _ _)
    refine ⟨session2, hfind2, ?_, hlen2⟩
    rw [hhist2]
    simp only []
    rw [lastN_append_lastN, List.map_cons, List.append_assoc]
    rfl

/-- C8: starting from a session whose history holds at most 40 entries
(a fresh session starts empty), after any sequence of `addMessage`
calls the session's conversation history is exactly the last 40 of the
appended message sequence, in insertion order, and never holds more
than 40 entries. -/
theorem conversationHistory_cap (cid : String) (msgs : List (Role × String × Int))
    (mgr : VoiceSessionManager) (session : CallSession)
    (hfind : mgr.activeSessions.lookup cid = some session)
    (hlen : session.conversationHistory.length ≤ 40) :
    ∃ session2 : CallSession,
      (runAddMessages cid mgr msgs).activeSessions.lookup cid = some session2 ∧
      session2.conversationHistory =
        lastN 40 (session.conversationHistory ++
          msgs.map (fun m =>
            ({ role := m.1, content := m.2.1, timestamp := m.2.2 } : ConversationMessage))) ∧
      session2.conversationHistory.length ≤ 40 :=
  runAddMessages_history cid msgs mgr session hfind hlen

theorem conversationHistory_cap_witness :
    ∃ session2 : CallSession,
      (runAddMessages "c1"
          ({ activeSessions :=
               [("c1",
                 { callControlId := "c1", phoneNumber := "+40700000000", startTime := 0,
                   lastActivity := 0, conversationHistory := [], callDurationMs := 0 })],
             dailyCallStats := [] } : VoiceSessionManager)
          [(Role.user, "salut", 5), (Role.assistant, "buna", 9)]).activeSessions.lookup "c1" =
        some session2 ∧
      session2.conversationHistory =
        lastN 40 (([] : List ConversationMessage) ++
          [(Role.user, "salut", (5 : Int)), (Role.assistant, "buna", 9)].map (fun m =>
            ({ role := m.1, content := m.2.1, timestamp := m.2.2 } : ConversationMessage))) ∧
      session2.conversationHistory.length ≤ 40 :=
  conversationHistory_cap "c1" [(Role.user, "salut", 5), (Role.assistant, "buna", 9)] _
    { callControlId := "c1", phoneNumber := "+40700000000", startTime := 0,
      lastActivity := 0, conversationHistory := [], callDurationMs := 0 }
    (by decide) (by decide)

/-! ### C6: rate limiter -/

theorem windowStart_bump (type : RLKind) (s : RateLimitStats) :
    (rlBump type s).windowStart = s.windowStart := by
  cases type <;> rfl

theorem windowStart_addCount (type : RLKind) (n : Nat) (s : RateLimitStats) :
    (rlAddCount type n s).windowStart = s.windowStart := by
  cases type <;> rfl

theorem rlCount_bump (type : RLKind) (s : RateLimitStats) :
    rlCount type (rlBump type s) = rlCount type s + 1 := by
  cases type <;> rfl

theorem rlCount_addCount (type : RLKind) (n : Nat) (s : RateLimitStats) :
    rlCount type (rlAddCount type n s) = rlCount type s + n := by
  cases type <;> rfl

theorem rlAddCount_zero (type : RLKind) (s : RateLimitStats) :
    rlAddCount type 0 s = s := by
  cases type <;> simp [rlAddCount]

theorem rlAddCount_bump (type : RLKind) (n : Nat) (s : RateLimitStats) :
    rlAddCount type n (rlBump type s) = rlAddCount type (n + 1) s := by
  cases type <;> simp only [rlAddCount, rlBump] <;> rw [Nat.add_assoc, Nat.add_comm 1 n]

theorem rlCount_fresh (type : RLKind) (w : Int) :
    rlCount type { sttCount := 0, ttsCount := 0, windowStart := w } = 0 := by
  cases type <;> rfl

theorem rlMax_pos (type : RLKind) : 1 ≤ rlMax type := by
  cases type <;> decide

theorem runRateLimit_cons (sessionId : String) (type : RLKind)
    (limits : List (String × RateLimitStats)) (t : Int) (ts : List Int) :
    runRateLimit sessionId type limits (t :: ts) =
      ((runRateLimit sessionId type (checkRateLimit limits sessionId type t).2 ts).1,
       (checkRateLimit limits sessionId type t).1 ::
         (runRateLimit sessionId type (checkRateLimit limits sessionId type t).2 ts).2) := by
  rcases hc : checkRateLimit limits sessionId type t with ⟨ok, l1⟩
  rcases hr : runRateLimit sessionId type l1 ts with ⟨l2, oks⟩
  simp [runRateLimit, hc, hr]

theorem checkRateLimit_within (limits : List (String × RateLimitStats)) (sessionId : String)
    (type : RLKind) (now : Int) (s : RateLimitStats)
    (hfind : limits.lookup sessionId = some s)
    (hwin : now - s.windowStart ≤ 60000)
    (hcap : rlCount type s < rlMax type) :
    checkRateLimit limits sessionId type now =
      (true, setEntry limits sessionId (rlBump type s)) := by
  unfold checkRateLimit rlProceed
  rw [hfind]
  simp only []
  rw [if_neg (by omega), if_neg (by omega)]

theorem checkRateLimit_at_cap (limits : List (String × RateLimitStats)) (sessionId : String)
    (type : RLKind) (now : Int) (s : RateLimitStats)
    (hfind : limits.lookup sessionId = some s)
    (hwin : now - s.windowStart ≤ 60000)
    (hcap : rlMax type ≤ rlCount type s) :
    checkRateLimit limits sessionId type now = (false, limits) := by
  unfold checkRateLimit rlProceed
  rw [hfind]
  simp only []
  rw [if_neg (by omega), if_pos (by omega)]

theorem checkRateLimit_expired (limits : List (String × RateLimitStats)) (sessionId : String)
    (type : RLKind) (now : Int) (s : RateLimitStats)
    (hfind : limits.lookup sessionId = some s)
    (hexp : now - s.windowStart > 60000) :
    (checkRateLimit limits sessionId type now).1 = true := by
  unfold checkRateLimit rlProceed
  rw [hfind]
  simp only []
  rw [if_pos hexp]
  have h0 : rlCount type { sttCount := 0, ttsCount := 0, windowStart := now } = 0 :=
    rlCount_fresh type now
  have hm := rlMax_pos type
  rw [if_neg (by omega)]

theorem checkRateLimit_fresh (limits : List (String × RateLimitStats)) (sessionId : String)
    (type : RLKind) (now : Int)
    (hfind : limits.lookup sessionId = none) :
    checkRateLimit limits sessionId type now =
      (true,
        setEntry (setEntry limits sessionId { sttCount := 0, ttsCount := 0, windowStart := now })
          sessionId (rlBump type { sttCount := 0, ttsCount := 0, windowStart := now })) := by
  unfold checkRateLimit rlProceed
  rw [hfind]
  simp only []
  have h0 : rlCount type { sttCount := 0, ttsCount := 0, windowStart := now } = 0 :=
    rlCount_fresh type now
  have hm := rlMax_pos type
  rw [if_neg (by omega)]

theorem runRateLimit_within (sessionId : String) (type : RLKind) :
    ∀ (ts : List Int) (limits : List (String × RateLimitStats)) (s : RateLimitStats),
      limits.lookup sessionId = some s →
      (∀ t ∈ ts, t - s.windowStart ≤ 60000) →
      rlCount type s + ts.length ≤ rlMax type →
      (runRateLimit sessionId type limits ts).2 = List.replicate ts.length true ∧
      (runRateLimit sessionId type limits ts).1.lookup sessionId =
        some (rlAddCount type ts.length s) := by
  intro ts
  induction ts with
  | nil =>
    intro limits s hfind hwin hcap
    refine ⟨rfl, ?_⟩
    rw [List.length_nil, rlAddCount_zero]
    exact hfind
  | cons t ts ih =>
    intro limits s hfind hwin hcap
    rw [runRateLimit_cons]
    have hc := checkRateLimit_within limits sessionId type t s hfind
      (hwin t (List.mem_cons_self t ts))
      (by simp only [List.length_cons] at hcap; omega)
    rw [hc]
    simp only []
    obtain ⟨ih1, ih2⟩ := ih (setEntry limits sessionId (rlBump type s)) (rlBump type s)
      (lookup_setEntry _ _ _)
      (fun u hu => by rw [windowStart_bump]; exact hwin u (List.mem_cons_of_mem _ hu))
      (by rw [rlCount_bump]; simp only [List.length_cons] at hcap; omega)
    refine ⟨?_, ?_⟩
    · rw [ih1]
      simp [List.replicate_succ]
    · rw [ih2, rlAddCount_bump]
      simp

/-- C6: for every session id and kind (stt capped at 30 per minute, tts
at 50), starting from a fresh window exactly the cap many consecutive
`checkRateLimit` calls within the same 60-second window return true;
the next call in the same window returns false without incrementing
(the map is unchanged); and once more than 60 seconds have passed since
the window start, the next call returns true again. -/
theorem rateLimiter_window (sessionId : String) (type : RLKind) (ts : List Int)
    (t0 tf te : Int)
    (hlen : ts.length + 1 = rlMax type)
    (hts : ∀ t ∈ ts, t - t0 ≤ 60000)
    (htf : tf - t0 ≤ 60000)
    (hte : te - t0 > 60000) :
    (runRateLimit sessionId type [] (t0 :: ts)).2 = List.replicate (rlMax type) true ∧
    (checkRateLimit (runRateLimit sessionId type [] (t0 :: ts)).1 sessionId type tf).1 = false ∧
    (checkRateLimit (runRateLimit sessionId type [] (t0 :: ts)).1 sessionId type tf).2 =
      (runRateLimit sessionId type [] (t0 :: ts)).1 ∧
    (checkRateLimit
        (checkRateLimit (runRateLimit sessionId type [] (t0 :: ts)).1 sessionId type tf).2
        sessionId type te).1 = true := by
  have hfreshcall := checkRateLimit_fresh [] sessionId type t0 rfl
  have hckws : (rlBump type { sttCount := 0, ttsCount := 0, windowStart := t0 }).windowStart = t0 :=
    windowStart_bump type _
  obtain ⟨h1, h2⟩ := runRateLimit_within sessionId type ts
    (setEntry (setEntry [] sessionId { sttCount := 0, ttsCount := 0, windowStart := t0 })
      sessionId (rlBump type { sttCount := 0, ttsCount := 0, windowStart := t0 }))
    (rlBump type { sttCount := 0, ttsCount := 0, windowStart := t0 })
    (lookup_setEntry _ _ _)
    (fun u hu => by rw [hckws]; exact hts u hu)
    (by rw [rlCount_bump, rlCount_fresh]; omega)
  have hstate : (runRateLimit sessionId type [] (t0 :: ts)).1.lookup sessionId =
      some (rlAddCount type ts.length
        (rlBump type { sttCount := 0, ttsCount := 0, windowStart := t0 })) := by
    rw [runRateLimit_cons, hfreshcall]
    simp only []
    exact h2
  have hfullcount : rlMax type ≤ rlCount type (rlAddCount type ts.length
      (rlBump type { sttCount := 0, ttsCount := 0, windowStart := t0 })) := by
    rw [rlCount_addCount, rlCount_bump, rlCount_fresh]
    omega
  have hfullws : (rlAddCount type ts.length
      (rlBump type { sttCount := 0, ttsCount := 0, windowStart := t0 })).windowStart = t0 := by
    rw [windowStart_addCount, hckws]
  have hcapcall := checkRateLimit_at_cap (runRateLimit sessionId type [] (t0 :: ts)).1
    sessionId type tf _ hstate (by rw [hfullws]; exact htf) hfullcount
  refine ⟨?_, ?_, ?_, ?_⟩
  · rw [runRateLimit_cons, hfreshcall]
    simp only []
    rw [h1, ← hlen]
    simp [List.replicate_succ]
  · rw [hcapcall]
  · rw [hcapcall]
  · rw [hcapcall]
    exact checkRateLimit_expired _ sessionId type te _ hstate (by rw [hfullws]; exact hte)

theorem rateLimiter_window_witness :
    (runRateLimit "call1" RLKind.stt [] ((0 : Int) :: List.replicate 29 (0 : Int))).2 =
      List.replicate (rlMax RLKind.stt) true ∧
    (checkRateLimit (runRateLimit "call1" RLKind.stt [] ((0 : Int) :: List.replicate 29 (0 : Int))).1
        "call1" RLKind.stt 60000).1 = false ∧
    (checkRateLimit (runRateLimit "call1" RLKind.stt [] ((0 : Int) :: List.replicate 29 (0 : Int))).1
        "call1" RLKind.stt 60000).2 =
      (runRateLimit "call1" RLKind.stt [] ((0 : Int) :: List.replicate 29 (0 : Int))).1 ∧
    (checkRateLimit
        (checkRateLimit
          (runRateLimit "call1" RLKind.stt [] ((0 : Int) :: List.replicate 29 (0 : Int))).1
          "call1" RLKind.stt 60000).2
        "call1" RLKind.stt 60001).1 = true :=
  rateLimiter_window "call1" RLKind.stt (List.replicate 29 (0 : Int)) 0 60000 60001
    (by decide) (by decide) (by decide) (by decide)
